import Mathlib

/-!
Verification of the VoiceScan-AI vocal-analysis application.

This file is a shallow embedding of the application's core, translated from
`src/App.tsx` (the recording state machine and per-frame analysis tick) and
`src/services/geminiService.ts` (the external analysis request builder).
Source files of the repository that are referenced by `App.tsx` but absent
from the source tree (`services/audioAnalyzer.ts`, `components/Spectrogram.tsx`)
are modelled from the specification; each such definition is marked
`Modelled from the spec:` in its doc comment.
-/

namespace VoiceScan

/-! ## Gemini service (`src/services/geminiService.ts`) -/

/-- One `inlineData` entry of the Gemini request: a MIME type and a
base64-encoded payload. -/
structure InlinePart where
  mimeType : String
  data : String
deriving DecidableEq, Repr

/-- One element of the `parts` array sent to the model: either inline binary
data or a text prompt. -/
inductive Part where
  | inlineData (p : InlinePart)
  | text (t : String)
deriving DecidableEq, Repr

/-- The data-URL header for PNG images, as matched by the anchored regex
`^data:image\/(png|jpg|jpeg);base64,` in `analyzeAudioWithGemini`. -/
def pngHeader : String := "data:image/png;base64,"

/-- The data-URL header for JPG images matched by the same regex. -/
def jpgHeader : String := "data:image/jpg;base64,"

/-- The data-URL header for JPEG images matched by the same regex. -/
def jpegHeader : String := "data:image/jpeg;base64,"

/-- `spectrogramBase64.replace(/^data:image\/(png|jpg|jpeg);base64,/, "")`:
strip a leading PNG/JPG/JPEG data-URL header, if present, from the encoded
still image; a string without such a header is returned unchanged. -/
def stripImageHeader (s : String) : String :=
  if pngHeader.data.isPrefixOf s.data then ⟨s.data.drop pngHeader.data.length⟩
  else if jpgHeader.data.isPrefixOf s.data then ⟨s.data.drop jpgHeader.data.length⟩
  else if jpegHeader.data.isPrefixOf s.data then ⟨s.data.drop jpegHeader.data.length⟩
  else s

/-- The prompt text used when no spectrogram image accompanies the audio. -/
def audioOnlyPrompt : String :=
  "Analise este áudio focando nas características da voz."

/-- The prompt text used when a spectrogram image accompanies the audio. -/
def audioImagePrompt : String :=
  "Analise o áudio e a imagem do espectrograma anexada. Correlacione o que você ouve com os padrões visuais no espectrograma (ex: harmônicos, ruído)."

/-- The `parts` array assembled by `analyzeAudioWithGemini`: first the audio
clip as inline data, then — only when a spectrogram image was supplied — the
image as inline PNG data with any data-URL header stripped, and finally the
prompt text (audio-only or audio-plus-image accordingly). -/
def geminiParts (audioMime base64Audio : String) (spectrogramBase64 : Option String) :
    List Part :=
  match spectrogramBase64 with
  | none =>
      [Part.inlineData ⟨audioMime, base64Audio⟩, Part.text audioOnlyPrompt]
  | some img =>
      [Part.inlineData ⟨audioMime, base64Audio⟩,
       Part.inlineData ⟨"image/png", stripImageHeader img⟩,
       Part.text audioImagePrompt]

/-- The fallback text returned when the model's response carries no text
(`response.text || "Não foi possível gerar uma análise."`). -/
def emptyResponseFallback : String := "Não foi possível gerar uma análise."

/-- The fixed message `analyzeAudioWithGemini` resolves with when anything in
its body throws (missing API key, encoding failure, failed remote call). -/
def geminiErrorMessage : String :=
  "Erro ao conectar com a IA. Verifique sua chave de API ou tente novamente."

/-- The effectful environment `analyzeAudioWithGemini` runs in: the configured
API key (if any), the outcome of reading the audio blob as base64, and the
remote `generateContent` call seen as a function from the request parts to
either a thrown error or a response whose `text` field may be absent. -/
structure GeminiEnv where
  apiKey : Option String
  blobBase64 : Except String String
  generateContent : List Part → Except String (Option String)

/-- The `try` block of `analyzeAudioWithGemini`: require an API key, encode
the blob, assemble the parts, issue the remote call, and produce the response
text (or the fixed fallback when the response has none). Any failure is an
`Except.error`, caught by the enclosing function. -/
def analyzeBody (env : GeminiEnv) (audioMime : String)
    (spectrogramBase64 : Option String) : Except String String :=
  match env.apiKey with
  | none => Except.error "API Key not found"
  | some _ =>
      match env.blobBase64 with
      | Except.error e => Except.error e
      | Except.ok base64Audio =>
          match env.generateContent (geminiParts audioMime base64Audio spectrogramBase64) with
          | Except.error e => Except.error e
          | Except.ok t => Except.ok (t.getD emptyResponseFallback)

/-- `analyzeAudioWithGemini`: run the body and catch every failure, resolving
with the fixed error message instead of rejecting. The return type `String`
(not `Except`) records that the promise always resolves with text. -/
def analyzeAudioWithGemini (env : GeminiEnv) (audioMime : String)
    (spectrogramBase64 : Option String) : String :=
  match analyzeBody env audioMime spectrogramBase64 with
  | Except.ok s => s
  | Except.error _ => geminiErrorMessage

/-! ## SpectrogramBuffer (component absent from src/, modelled from the spec) -/

/-- A spectrogram column: one color-mapped frequency snapshot, represented as
the byte magnitudes of its frequency bins. -/
abbrev Column : Type := List Nat

/-- The last `w` elements of a list: everything except the prefix that exceeds
the capacity `w`. -/
def lastN (w : Nat) (l : List α) : List α := l.drop (l.length - w)

/-- Modelled from the spec: `SpectrogramBuffer.appendColumn` (the
`components/Spectrogram.tsx` source is absent from src/). The new column is
placed at the newest end; when the number of columns reaches the configured
width, the oldest column is evicted (strict capacity-bounded FIFO scroll). -/
def appendColumn (width : Nat) (buf : List Column) (c : Column) : List Column :=
  lastN width (buf ++ [c])

/-- A frozen still image of the spectrogram: the grid of columns at the moment
of export. -/
structure StillImage where
  columns : List Column
deriving DecidableEq

/-- Modelled from the spec: `SpectrogramBuffer.exportStill` /
`Spectrogram.getCanvasImage` — encode the buffer's current contents as a
static image without mutating the buffer. -/
def exportStill (buf : List Column) : StillImage := ⟨buf⟩

/-- Modelled from the spec: the configured number of visible spectrogram
columns (the component's canvas width is absent from src/; the exact value is
irrelevant to the claims). -/
def specWidth : Nat := 200

/-! ## SpectralAnalyzer (`services/audioAnalyzer.ts` absent from src/,
modelled from the spec) -/

/-- The real-time metrics published once per tick: estimated fundamental pitch
in Hz (0 if undetected), volume in dB (floored at silence), and a harmonic
clarity indicator in [0,1] (0 when undeterminable). -/
structure AudioMetrics where
  pitch : ℚ
  volume : ℚ
  clarity : ℚ
deriving DecidableEq, Repr

/-- The audio sample rate assumed by the analyzer model. -/
def sampleRate : ℚ := 44100

/-- The clamped loudness value representing silence. -/
def silenceFloor : ℚ := -100

/-- Total energy of a window: the sum of squared samples. -/
def energyOf (w : List ℚ) : ℚ := (w.map (fun s => s * s)).sum

/-- Mean squared amplitude of a window (zero for the empty window). -/
def meanSquare (w : List ℚ) : ℚ := energyOf w / (w.length : ℚ)

/-- Order-of-magnitude base-10 logarithm of a positive rational, used as the
executable decibel conversion of the model. -/
def ratLog10 (q : ℚ) : ℤ :=
  if q ≤ 0 then 0 else (Nat.log 10 q.num.toNat : ℤ) - (Nat.log 10 q.den : ℤ)

/-- Modelled from the spec: `AudioAnalyzer.getVolume` — RMS energy converted
to a bounded dB-style loudness scale, clamped to the silence floor (never
negative infinity on zero energy). -/
def getVolume (w : List ℚ) : ℚ :=
  if energyOf w = 0 then silenceFloor
  else max silenceFloor (10 * (ratLog10 (meanSquare w) : ℚ))

/-- Autocorrelation of a window at a given lag. -/
def corr (w : List ℚ) (lag : Nat) : ℚ :=
  (List.zipWith (fun a b => a * b) w (w.drop lag)).sum

/-- Smallest autocorrelation lag searched: 500 Hz at the model sample rate. -/
def minLag : Nat := 88

/-- Largest autocorrelation lag searched: 60 Hz at the model sample rate. -/
def maxLag : Nat := 735

/-- Confidence threshold a periodic peak must exceed, as a fraction of the
zero-lag autocorrelation. -/
def pitchThreshold : ℚ := 1 / 2

/-- The lag in the plausible voice range with the largest autocorrelation,
together with that correlation value ((0, 0) when nothing is positive). -/
def bestLag (w : List ℚ) : Nat × ℚ :=
  (List.range' minLag (maxLag - minLag + 1)).foldl
    (fun best lag => if corr w lag > best.2 then (lag, corr w lag) else best)
    (0, 0)

/-- Modelled from the spec: `AudioAnalyzer.getPitch` — locate the dominant
periodicity by autocorrelation over the plausible voice range; report 0
("undetected") when no clear periodic peak exceeds the confidence threshold,
in particular on a silent window. -/
def getPitch (w : List ℚ) : ℚ :=
  let r0 := corr w 0
  if r0 ≤ 0 then 0
  else
    let best := bestLag w
    if best.2 > pitchThreshold * r0 ∧ best.1 ≠ 0 then sampleRate / (best.1 : ℚ)
    else 0

/-- Square-wave basis function of the model's frequency transform: the sign of
bin `k` at sample index `n` in a window of length `N`. -/
def squareWave (N k n : Nat) : ℚ :=
  if 2 * ((n * k) % N) < N then 1 else -1

/-- Amplitude of one frequency bin: the absolute correlation of the window with
the bin's square wave. -/
def binAmplitude (w : List ℚ) (k : Nat) : ℚ :=
  |((List.range w.length).map (fun n => w.getD n 0 * squareWave w.length k n)).sum|

/-- Clamp a rational magnitude into the byte range 0–255. -/
def byteClamp (q : ℚ) : Nat := min 255 (max 0 ⌊q⌋).toNat

/-- Modelled from the spec: `AudioAnalyzer.getFrequencyData` — a per-bin
magnitude snapshot with half as many bins as the window has samples, each
normalized into 0–255. -/
def getFrequencyData (w : List ℚ) : List Nat :=
  (List.range (w.length / 2)).map
    (fun k => byteClamp (255 * binAmplitude w k / (w.length : ℚ)))

/-- Modelled from the spec: the clarity indicator — the ratio of the peak bin
energy to the total snapshot energy, bounded to [0,1], and 0 when
undeterminable (an all-zero snapshot). -/
def clarityOf (snap : List Nat) : ℚ :=
  if snap.sum = 0 then 0
  else min 1 ((snap.foldr max 0 : ℚ) / (snap.sum : ℚ))

/-- Modelled from the spec: `SpectralAnalyzer.analyze` — one tick's snapshot
and derived metrics, a pure function of the window. -/
def analyze (w : List ℚ) : List Nat × AudioMetrics :=
  let snap := getFrequencyData w
  (snap, { pitch := getPitch w, volume := getVolume w, clarity := clarityOf snap })

/-! ## The application state machine (`src/App.tsx`) -/

/-- `AnalysisStatus` from `types.ts`, with exactly the values `App.tsx` uses. -/
inductive AnalysisStatus where
  | IDLE
  | RECORDING
  | PROCESSING
  | COMPLETED
  | ERROR
deriving DecidableEq, Repr

/-- What one tick reads from the analyzer: `analyzer.getPitch()`,
`analyzer.getVolume()` and `analyzer.getFrequencyData()`. The analyzer is an
external producer fed by the microphone, so a tick's reading is an input of
the transition. -/
structure AnalyzerReading where
  pitch : ℚ
  volume : ℚ
  freqData : List Nat
deriving DecidableEq, Repr

/-- The alert text shown when starting the capture session fails. -/
def micAlertMessage : String := "Erro ao iniciar. Verifique permissões de microfone."

/-- The text shown when `performGeminiAnalysis` catches a failure. -/
def analysisFailedMessage : String := "Falha na análise da IA."

/-- The state of the `App` component: the React `useState` values of
`App.tsx`, the recorder and animation-frame refs, and the spectrogram canvas
contents, plus observation logs (alerts shown, analysis requests issued). -/
structure AppState where
  /-- `status` state: the `AnalysisStatus`. -/
  status : AnalysisStatus
  /-- `metrics` state: the last published `AudioMetrics`. -/
  metrics : AudioMetrics
  /-- `frequencyData` state: the snapshot last published to the spectrogram. -/
  frequencyData : List Nat
  /-- `geminiAnalysis` state: the last analysis report text, if any. -/
  geminiAnalysis : Option String
  /-- Whether `mediaRecorderRef` holds a recorder whose state is not
  `inactive`. -/
  recorderActive : Bool
  /-- Whether `animationRef` holds a pending `requestAnimationFrame` handle. -/
  scheduledTick : Bool
  /-- The spectrogram canvas contents (columns drawn so far). -/
  canvas : List Column
  /-- The still image captured by `stopRecording` for the pending analysis. -/
  pendingImage : Option StillImage
  /-- Whether a recorder `onstop` handler is pending that will run
  `performGeminiAnalysis`. -/
  pendingAnalysis : Bool
  /-- Log of analysis requests issued, each with its attached image. -/
  requests : List (Option StillImage)
  /-- Log of alert messages surfaced to the user. -/
  alerts : List String
deriving DecidableEq

/-- The initial component state: Idle, metrics
`{ pitch: 0, volume: -100, clarity: 0 }`, an empty frequency snapshot, no
report, no recorder, no scheduled frame. -/
def initialState : AppState where
  status := AnalysisStatus.IDLE
  metrics := { pitch := 0, volume := -100, clarity := 0 }
  frequencyData := []
  geminiAnalysis := none
  recorderActive := false
  scheduledTick := false
  canvas := []
  pendingImage := none
  pendingAnalysis := false
  requests := []
  alerts := []

/-- The body of `updateMetrics` in `App.tsx`: while the status is RECORDING,
read pitch, volume and frequency data from the analyzer, publish the metrics
(with `clarity: 0`), publish a copy of the frequency snapshot (which the
Spectrogram component appends as a column), and schedule exactly one successor
frame; otherwise do nothing. -/
def updateMetrics (r : AnalyzerReading) (s : AppState) : AppState :=
  if s.status = AnalysisStatus.RECORDING then
    { s with
        metrics := { pitch := r.pitch, volume := r.volume, clarity := 0 },
        frequencyData := r.freqData,
        canvas := appendColumn specWidth s.canvas r.freqData,
        scheduledTick := true }
  else s

/-- The events that drive the `App` state: a scheduled animation frame firing,
the status `useEffect` running after a status change, the start flow
succeeding or failing (`startAnalysisFlow`), the stop button
(`stopRecording`), the pending analysis completing
(`performGeminiAnalysis`), and clearing the report. -/
inductive AppEvent where
  | frame (r : AnalyzerReading)
  | statusEffect (r : AnalyzerReading)
  | startSuccess
  | startFailure
  | stopClick
  | geminiDone (res : Except String String)
  | clearResult

/-- The start button is rendered enabled exactly when the app is neither
recording nor processing (instruction playback, which also disables it, is
not modelled). -/
abbrev canStart (s : AppState) : Prop :=
  s.status ≠ AnalysisStatus.RECORDING ∧ s.status ≠ AnalysisStatus.PROCESSING

/-- One transition of the `App` component.
`frame`: a pending `requestAnimationFrame` callback fires and runs
`updateMetrics` (consuming the handle).
`statusEffect`: the `useEffect` on `status` runs — it calls `updateMetrics`
when RECORDING and cancels the pending frame otherwise.
`startSuccess`: `startAnalysisFlow` with a live input — clear the report,
start the recorder, set status RECORDING.
`startFailure`: `startAnalysisFlow` when `analyzer.start()` throws — clear the
report, alert, set status IDLE; no recorder is started and no metrics are
published.
`stopClick`: `stopRecording` with an active recorder — capture the spectrogram
image, stop the recorder and analyzer, set status PROCESSING, leaving the
`onstop` analysis pending.
`geminiDone`: the `onstop` handler ran `performGeminiAnalysis`, issuing the
request with the captured image and finishing with the result (COMPLETED) or
the failure text (ERROR).
`clearResult`: the result panel's clear button. -/
def step (e : AppEvent) (s : AppState) : AppState :=
  match e with
  | AppEvent.frame r =>
      if s.scheduledTick then updateMetrics r { s with scheduledTick := false } else s
  | AppEvent.statusEffect r =>
      if s.status = AnalysisStatus.RECORDING then updateMetrics r s
      else { s with scheduledTick := false }
  | AppEvent.startSuccess =>
      if canStart s then
        { s with
            geminiAnalysis := none,
            recorderActive := true,
            status := AnalysisStatus.RECORDING }
      else s
  | AppEvent.startFailure =>
      if canStart s then
        { s with
            geminiAnalysis := none,
            alerts := s.alerts ++ [micAlertMessage],
            status := AnalysisStatus.IDLE }
      else s
  | AppEvent.stopClick =>
      if s.recorderActive then
        { s with
            pendingImage := some (exportStill s.canvas),
            recorderActive := false,
            status := AnalysisStatus.PROCESSING,
            pendingAnalysis := true }
      else s
  | AppEvent.geminiDone res =>
      if s.pendingAnalysis then
        match res with
        | Except.ok t =>
            { s with
                geminiAnalysis := some t,
                status := AnalysisStatus.COMPLETED,
                pendingAnalysis := false,
                requests := s.requests ++ [s.pendingImage] }
        | Except.error _ =>
            { s with
                geminiAnalysis := some analysisFailedMessage,
                status := AnalysisStatus.ERROR,
                pendingAnalysis := false,
                requests := s.requests ++ [s.pendingImage] }
      else s
  | AppEvent.clearResult => { s with geminiAnalysis := none }

/-- The states the `App` component can reach from its initial render. -/
inductive Reachable : AppState → Prop where
  | init : Reachable initialState
  | next {s : AppState} (h : Reachable s) (e : AppEvent) : Reachable (step e s)

/-- A sample mid-recording state, used to instantiate theorems about the
stop flow. -/
def recordingSample : AppState :=
  { initialState with
      status := AnalysisStatus.RECORDING,
      recorderActive := true,
      scheduledTick := true,
      canvas := [[10, 20], [30, 40]] }

/-! ## Helper lemmas -/

theorem lastN_length_le (w : Nat) (l : List α) : (lastN w l).length ≤ w := by
  simp only [lastN, List.length_drop]
  omega

theorem lastN_of_length_le (w : Nat) (l : List α) (h : l.length ≤ w) :
    lastN w l = l := by
  simp [lastN, Nat.sub_eq_zero_of_le h]

theorem lastN_append_of_le (w : Nat) (l₁ l₂ : List α) (h : w ≤ l₂.length) :
    lastN w (l₁ ++ l₂) = lastN w l₂ := by
  have hlen : (l₁ ++ l₂).length - w = l₁.length + (l₂.length - w) := by
    simp only [List.length_append]; omega
  simp only [lastN, hlen]
  rw [← List.drop_drop, List.drop_left]

theorem lastN_lastN_append (w : Nat) (l₁ l₂ : List α) :
    lastN w (lastN w l₁ ++ l₂) = lastN w (l₁ ++ l₂) := by
  by_cases h : l₁.length ≤ w
  · rw [lastN_of_length_le w l₁ h]
  · have hlen : (lastN w l₁).length = w := by
      simp only [lastN, List.length_drop]; omega
    have hsplit : l₁ ++ l₂ = l₁.take (l₁.length - w) ++ (lastN w l₁ ++ l₂) := by
      simp only [lastN, ← List.append_assoc, List.take_append_drop]
    rw [hsplit, lastN_append_of_le w (l₁.take (l₁.length - w)) (lastN w l₁ ++ l₂)]
    simp only [List.length_append, hlen]
    omega

/-- Folding `appendColumn` over a sequence of columns, starting from any buffer
within capacity, retains exactly the last `width` columns of everything seen. -/
theorem foldl_appendColumn (width : Nat) (cols : List Column) :
    ∀ buf : List Column, buf.length ≤ width →
      cols.foldl (appendColumn width) buf = lastN width (buf ++ cols) := by
  induction cols with
  | nil =>
      intro buf h
      simp [lastN_of_length_le width buf h]
  | cons c cs ih =>
      intro buf h
      have hstep : appendColumn width buf c = lastN width (buf ++ [c]) := rfl
      have hlen : (appendColumn width buf c).length ≤ width := lastN_length_le _ _
      calc (c :: cs).foldl (appendColumn width) buf
          = cs.foldl (appendColumn width) (appendColumn width buf c) := rfl
        _ = lastN width (appendColumn width buf c ++ cs) := ih _ hlen
        _ = lastN width ((buf ++ [c]) ++ cs) := by
              rw [hstep, lastN_lastN_append]
        _ = lastN width (buf ++ c :: cs) := by simp

theorem getD_replicate_zero (n i : Nat) :
    (List.replicate n (0 : ℚ)).getD i 0 = 0 := by
  induction n generalizing i with
  | zero => simp [List.getD]
  | succ m ih =>
      cases i with
      | zero => simp [List.replicate_succ]
      | succ j => simp only [List.replicate_succ, List.getD_cons_succ]; exact ih j

theorem energyOf_replicate_zero (n : Nat) :
    energyOf (List.replicate n (0 : ℚ)) = 0 := by
  simp [energyOf, List.map_replicate]

theorem sum_zipWith_mul_replicate_zero (n : Nat) (l : List ℚ) :
    (List.zipWith (fun a b => a * b) (List.replicate n (0 : ℚ)) l).sum = 0 := by
  induction n generalizing l with
  | zero => simp
  | succ m ih =>
      cases l with
      | nil => simp
      | cons x xs => simp [List.replicate_succ, ih xs]

theorem corr_replicate_zero (n lag : Nat) :
    corr (List.replicate n (0 : ℚ)) lag = 0 := by
  unfold corr
  exact sum_zipWith_mul_replicate_zero n _

theorem getFrequencyData_replicate_zero (n : Nat) :
    getFrequencyData (List.replicate n (0 : ℚ)) = List.replicate (n / 2) 0 := by
  unfold getFrequencyData
  have hbin : ∀ k, binAmplitude (List.replicate n (0 : ℚ)) k = 0 := by
    intro k
    unfold binAmplitude
    have : ∀ m ∈ List.range (List.replicate n (0 : ℚ)).length,
        (List.replicate n (0 : ℚ)).getD m 0 *
          squareWave (List.replicate n (0 : ℚ)).length k m = 0 := by
      intro m _
      simp [getD_replicate_zero]
    rw [List.sum_eq_zero (List.forall_mem_map.2 this)]
    simp
  have hmap : ∀ k ∈ List.range ((List.replicate n (0 : ℚ)).length / 2),
      byteClamp (255 * binAmplitude (List.replicate n (0 : ℚ)) k /
        ((List.replicate n (0 : ℚ)).length : ℚ)) = 0 := by
    intro k _
    simp [hbin, byteClamp]
  calc (List.range ((List.replicate n (0 : ℚ)).length / 2)).map
        (fun k => byteClamp (255 * binAmplitude (List.replicate n (0 : ℚ)) k /
          ((List.replicate n (0 : ℚ)).length : ℚ)))
      = (List.range ((List.replicate n (0 : ℚ)).length / 2)).map (fun _ => 0) :=
        List.map_congr_left hmap
    _ = List.replicate (n / 2) 0 := by simp [List.map_const']

theorem prefix_take_eq {p q r : List Char} (h : p <+: q ++ r) (n : Nat)
    (hn1 : n ≤ p.length) (hn2 : n ≤ q.length) : p.take n = q.take n := by
  obtain ⟨t, ht⟩ := h
  have htake : (p ++ t).take n = (q ++ r).take n := by rw [ht]
  rwa [List.take_append_of_le_length hn1, List.take_append_of_le_length hn2] at htake

theorem strip_png_header (rest : String) :
    stripImageHeader (pngHeader ++ rest) = rest := by
  obtain ⟨l⟩ := rest
  have hdata : (pngHeader ++ String.mk l).data = pngHeader.data ++ l := rfl
  unfold stripImageHeader
  rw [hdata]
  rw [if_pos ( List.isPrefixOf_iff_prefix.2 ( List.prefix_append _ _))]
  rw [List.drop_left]

theorem strip_jpg_header (rest : String) :
    stripImageHeader (jpgHeader ++ rest) = rest := by
  obtain ⟨l⟩ := rest
  have hdata : (jpgHeader ++ String.mk l).data = jpgHeader.data ++ l := rfl
  have hpng : ¬ pngHeader.data.isPrefixOf (jpgHeader.data ++ l) := by
    intro hp
    have := prefix_take_eq ( List.isPrefixOf_iff_prefix.1 hp) 12 (by decide) (by decide)
    exact absurd this (by decide)
  unfold stripImageHeader
  rw [hdata, if_neg hpng]
  rw [if_pos ( List.isPrefixOf_iff_prefix.2 ( List.prefix_append _ _))]
  rw [List.drop_left]

theorem strip_jpeg_header (rest : String) :
    stripImageHeader (jpegHeader ++ rest) = rest := by
  obtain ⟨l⟩ := rest
  have hdata : (jpegHeader ++ String.mk l).data = jpegHeader.data ++ l := rfl
  have hpng : ¬ pngHeader.data.isPrefixOf (jpegHeader.data ++ l) := by
    intro hp
    have := prefix_take_eq ( List.isPrefixOf_iff_prefix.1 hp) 12 (by decide) (by decide)
    exact absurd this (by decide)
  have hjpg : ¬ jpgHeader.data.isPrefixOf (jpegHeader.data ++ l) := by
    intro hp
    have := prefix_take_eq ( List.isPrefixOf_iff_prefix.1 hp) 14 (by decide) (by decide)
    exact absurd this (by decide)
  unfold stripImageHeader
  rw [hdata, if_neg hpng, if_neg hjpg]
  rw [if_pos ( List.isPrefixOf_iff_prefix.2 ( List.prefix_append _ _))]
  rw [List.drop_left]

theorem step_preserves_clarity (e : AppEvent) (s : AppState)
    (h : s.metrics.clarity = 0) : (step e s).metrics.clarity = 0 := by
  cases e with
  | frame r =>
      simp only [step]
      split
      · unfold updateMetrics
        split <;> simp [h]
      · exact h
  | statusEffect r =>
      simp only [step]
      split
      · unfold updateMetrics
        split <;> simp [h]
      · exact h
  | startSuccess => simp only [step]; split <;> simp [h]
  | startFailure => simp only [step]; split <;> simp [h]
  | stopClick => simp only [step]; split <;> simp [h]
  | geminiDone res =>
      simp only [step]
      split
      · cases res <;> simp [h]
      · exact h
  | clearResult => simp [step, h]

/-! ## The claims -/

/-- C1: while the status is RECORDING, every animation-frame tick reads the
analyzer's current pitch, volume and frequency data, publishes the resulting
metrics, publishes the frequency snapshot to the spectrogram, and schedules
exactly one successor frame. -/
theorem tick_publishes_and_reschedules (s : AppState) (r : AnalyzerReading)
    (hst : s.status = AnalysisStatus.RECORDING) (hsch : s.scheduledTick = true) :
    step (AppEvent.frame r) s =
      { s with
          metrics := { pitch := r.pitch, volume := r.volume, clarity := 0 },
          frequencyData := r.freqData,
          canvas := appendColumn specWidth s.canvas r.freqData,
          scheduledTick := true } := by
  obtain ⟨st, m, fd, g, rec, sch, cv, pi, pa, rq, al⟩ := s
  simp only at hst hsch
  subst hst hsch
  simp [step, updateMetrics]

/-- Witness for C1 at a concrete recording state and reading. -/
theorem tick_publishes_and_reschedules_witness :
    step (AppEvent.frame ⟨220, -20, [7, 8, 9]⟩)
        { initialState with
            status := AnalysisStatus.RECORDING,
            recorderActive := true,
            scheduledTick := true } =
      { initialState with
          status := AnalysisStatus.RECORDING,
          recorderActive := true,
          scheduledTick := true,
          metrics := { pitch := 220, volume := -20, clarity := 0 },
          frequencyData := [7, 8, 9],
          canvas := [[7, 8, 9]] } := by
  exact tick_publishes_and_reschedules _ _ rfl rfl

/-- C2: stopping an active recording leaves a status other than RECORDING;
once the status effect has run, the scheduled frame is cancelled and a frame
event is a complete no-op; and even a frame firing between the stop and the
effect publishes nothing and schedules no successor. -/
theorem stop_cancels_ticking (s : AppState) (r r2 : AnalyzerReading)
    (h : s.recorderActive = true) :
    (step AppEvent.stopClick s).status ≠ AnalysisStatus.RECORDING ∧
    (step (AppEvent.statusEffect r) (step AppEvent.stopClick s)).scheduledTick = false ∧
    step (AppEvent.frame r2) (step (AppEvent.statusEffect r) (step AppEvent.stopClick s)) =
      step (AppEvent.statusEffect r) (step AppEvent.stopClick s) ∧
    (step (AppEvent.frame r2) (step AppEvent.stopClick s)).metrics =
      (step AppEvent.stopClick s).metrics ∧
    (step (AppEvent.frame r2) (step AppEvent.stopClick s)).scheduledTick = false := by
  refine ⟨?_, ?_, ?_, ?_, ?_⟩ <;>
    by_cases hs : s.scheduledTick <;>
      simp [step, updateMetrics, h, hs]

/-- Witness for C2 at a concrete recording state. -/
theorem stop_cancels_ticking_witness :
    (step AppEvent.stopClick recordingSample).status ≠ AnalysisStatus.RECORDING ∧
    (step (AppEvent.statusEffect ⟨1, 2, [3]⟩)
        (step AppEvent.stopClick recordingSample)).scheduledTick = false ∧
    step (AppEvent.frame ⟨4, 5, [6]⟩)
        (step (AppEvent.statusEffect ⟨1, 2, [3]⟩) (step AppEvent.stopClick recordingSample)) =
      step (AppEvent.statusEffect ⟨1, 2, [3]⟩) (step AppEvent.stopClick recordingSample) ∧
    (step (AppEvent.frame ⟨4, 5, [6]⟩) (step AppEvent.stopClick recordingSample)).metrics =
      (step AppEvent.stopClick recordingSample).metrics ∧
    (step (AppEvent.frame ⟨4, 5, [6]⟩)
        (step AppEvent.stopClick recordingSample)).scheduledTick = false := by
  exact stop_cancels_ticking recordingSample ⟨1, 2, [3]⟩ ⟨4, 5, [6]⟩ rfl

/-- C3: while Idle, no event modifies the published metrics; their initial
value is `{ pitch: 0, volume: -100, clarity: 0 }`; and a start request
followed by a stop request, with zero ticks in between, leaves the metrics at
their pre-start value. -/
theorem metrics_frozen_while_idle (s : AppState) (e : AppEvent)
    (h : s.status = AnalysisStatus.IDLE) :
    (step e s).metrics = s.metrics ∧
    (step AppEvent.stopClick (step AppEvent.startSuccess s)).metrics = s.metrics ∧
    initialState.metrics = { pitch := 0, volume := -100, clarity := 0 } := by
  refine ⟨?_, ?_, rfl⟩
  · cases e with
    | frame r =>
        simp only [step]
        split
        · simp [updateMetrics, h]
        · rfl
    | statusEffect r => simp [step, updateMetrics, h]
    | startSuccess => simp [step, canStart, h]
    | startFailure => simp [step, canStart, h]
    | stopClick => simp only [step]; split <;> rfl
    | geminiDone res =>
        simp only [step]
        split
        · cases res <;> rfl
        · rfl
    | clearResult => rfl
  · simp [step, canStart, h]

/-- Witness for C3 at the initial state and a concrete event. -/
theorem metrics_frozen_while_idle_witness :
    (step AppEvent.clearResult initialState).metrics = initialState.metrics ∧
    (step AppEvent.stopClick (step AppEvent.startSuccess initialState)).metrics =
      initialState.metrics ∧
    initialState.metrics = { pitch := 0, volume := -100, clarity := 0 } := by
  exact metrics_frozen_while_idle initialState AppEvent.clearResult rfl

/-- C4: when starting the capture session fails, the failure is surfaced as an
alert in the same transition, the status is IDLE (never RECORDING), no
recorder is started, no metrics or frequency data are published, no frame is
scheduled, and no analysis request is issued. -/
theorem start_failure_returns_idle (s : AppState)
    (h : s.status = AnalysisStatus.IDLE) :
    (step AppEvent.startFailure s).status = AnalysisStatus.IDLE ∧
    (step AppEvent.startFailure s).recorderActive = s.recorderActive ∧
    (step AppEvent.startFailure s).metrics = s.metrics ∧
    (step AppEvent.startFailure s).frequencyData = s.frequencyData ∧
    (step AppEvent.startFailure s).scheduledTick = s.scheduledTick ∧
    (step AppEvent.startFailure s).alerts = s.alerts ++ [micAlertMessage] ∧
    (step AppEvent.startFailure s).requests = s.requests := by
  simp [step, canStart, h]

/-- Witness for C4 at the initial state. -/
theorem start_failure_returns_idle_witness :
    (step AppEvent.startFailure initialState).status = AnalysisStatus.IDLE ∧
    (step AppEvent.startFailure initialState).recorderActive = initialState.recorderActive ∧
    (step AppEvent.startFailure initialState).metrics = initialState.metrics ∧
    (step AppEvent.startFailure initialState).frequencyData = initialState.frequencyData ∧
    (step AppEvent.startFailure initialState).scheduledTick = initialState.scheduledTick ∧
    (step AppEvent.startFailure initialState).alerts =
      initialState.alerts ++ [micAlertMessage] ∧
    (step AppEvent.startFailure initialState).requests = initialState.requests := by
  exact start_failure_returns_idle initialState rfl

/-- C5: appending more columns than the configured width, starting from any
buffer within capacity, leaves exactly `width` columns, and the eviction is
strict FIFO: exactly the oldest surplus columns are gone and the remaining
window is the last `width` appended columns in order. -/
theorem appendColumn_fifo_eviction (width : Nat) (buf cols : List Column)
    (hbuf : buf.length ≤ width) (hlen : width < cols.length) :
    (cols.foldl (appendColumn width) buf).length = width ∧
    cols.foldl (appendColumn width) buf = cols.drop (cols.length - width) := by
  have h1 : cols.foldl (appendColumn width) buf = lastN width cols := by
    rw [foldl_appendColumn width cols buf hbuf, lastN_append_of_le width buf cols hlen.le]
  refine ⟨?_, ?_⟩
  · rw [h1]
    simp only [lastN, List.length_drop]
    omega
  · rw [h1]
    rfl

/-- Witness for C5: width 2, appending 4 = width + 2 columns leaves exactly
the last two columns. -/
theorem appendColumn_fifo_eviction_witness :
    (([[1], [2], [3], [4]] : List Column).foldl (appendColumn 2) []).length = 2 ∧
    ([[1], [2], [3], [4]] : List Column).foldl (appendColumn 2) [] =
      ([[1], [2], [3], [4]] : List Column).drop (([[1], [2], [3], [4]] : List Column).length - 2) := by
  exact appendColumn_fifo_eviction 2 [] [[1], [2], [3], [4]] (by decide) (by decide)

/-- C6: stopping an active recording captures the spectrogram's contents as a
still image exactly once, at the stop itself; a second stop is a no-op; the
captured image is unchanged by later frames or effects; and the analysis
request issued by the recorder's stop handler attaches exactly that captured
image, not a later state. -/
theorem stop_captures_still_once (s : AppState) (r : AnalyzerReading)
    (res : Except String String) (h : s.recorderActive = true) :
    (step AppEvent.stopClick s).pendingImage = some (exportStill s.canvas) ∧
    step AppEvent.stopClick (step AppEvent.stopClick s) = step AppEvent.stopClick s ∧
    (step (AppEvent.frame r) (step AppEvent.stopClick s)).pendingImage =
      some (exportStill s.canvas) ∧
    (step (AppEvent.statusEffect r) (step AppEvent.stopClick s)).pendingImage =
      some (exportStill s.canvas) ∧
    (step (AppEvent.geminiDone res) (step AppEvent.stopClick s)).requests =
      s.requests ++ [some (exportStill s.canvas)] := by
  refine ⟨?_, ?_, ?_, ?_, ?_⟩
  · simp [step, h]
  · simp [step, h]
  · by_cases hs : s.scheduledTick <;> simp [step, updateMetrics, h, hs]
  · simp [step, updateMetrics, h]
  · cases res <;> simp [step, h]

/-- Witness for C6 at a concrete recording state with a non-empty canvas. -/
theorem stop_captures_still_once_witness :
    (step AppEvent.stopClick recordingSample).pendingImage =
      some (exportStill recordingSample.canvas) ∧
    step AppEvent.stopClick (step AppEvent.stopClick recordingSample) =
      step AppEvent.stopClick recordingSample ∧
    (step (AppEvent.frame ⟨9, 9, [9]⟩)
        (step AppEvent.stopClick recordingSample)).pendingImage =
      some (exportStill recordingSample.canvas) ∧
    (step (AppEvent.statusEffect ⟨9, 9, [9]⟩)
        (step AppEvent.stopClick recordingSample)).pendingImage =
      some (exportStill recordingSample.canvas) ∧
    (step (AppEvent.geminiDone (Except.ok "report"))
        (step AppEvent.stopClick recordingSample)).requests =
      recordingSample.requests ++ [some (exportStill recordingSample.canvas)] := by
  exact stop_captures_still_once recordingSample ⟨9, 9, [9]⟩ (Except.ok "report") rfl

/-- C7: the external analysis request takes an encoded audio clip plus an
optional encoded still image and returns free-form text; without an image the
parts are the audio followed by the audio-only prompt, and with an image they
are the audio, the image (with any PNG/JPG/JPEG data-URL header stripped),
and the audio-plus-image prompt. -/
theorem gemini_request_parts (mime b64 img rest : String) :
    geminiParts mime b64 none =
      [Part.inlineData ⟨mime, b64⟩, Part.text audioOnlyPrompt] ∧
    geminiParts mime b64 (some img) =
      [Part.inlineData ⟨mime, b64⟩,
       Part.inlineData ⟨"image/png", stripImageHeader img⟩,
       Part.text audioImagePrompt] ∧
    stripImageHeader (pngHeader ++ rest) = rest ∧
    stripImageHeader (jpgHeader ++ rest) = rest ∧
    stripImageHeader (jpegHeader ++ rest) = rest :=
  ⟨rfl, rfl, strip_png_header rest, strip_jpg_header rest, strip_jpeg_header rest⟩

/-- C8: a silent (all-zero) window analyzes to an all-zero spectral snapshot
(half as many bins as samples) together with pitch 0, volume at the silence
floor -100, and clarity 0 — a normal value, not an error. -/
theorem analyze_silent_window (n : Nat) :
    analyze (List.replicate n (0 : ℚ)) =
      (List.replicate (n / 2) 0, ⟨0, silenceFloor, 0⟩) ∧
    silenceFloor = -100 := by
  refine ⟨?_, rfl⟩
  unfold analyze
  rw [getFrequencyData_replicate_zero]
  have hp : getPitch (List.replicate n (0 : ℚ)) = 0 := by
    unfold getPitch
    simp [corr_replicate_zero]
  have hv : getVolume (List.replicate n (0 : ℚ)) = silenceFloor := by
    unfold getVolume
    simp [energyOf_replicate_zero]
  have hc : clarityOf (List.replicate (n / 2) 0) = 0 := by
    unfold clarityOf
    simp
  simp [hp, hv, hc]

/-- C9: every reachable published metrics value has clarity exactly 0 — the
application sets `clarity: 0` on every tick and starts from clarity 0, so
clarity is a constant, never computed from the signal. -/
theorem clarity_constant_zero (s : AppState) (h : Reachable s) :
    s.metrics.clarity = 0 := by
  induction h with
  | init => rfl
  | next _ e ih => exact step_preserves_clarity e _ ih

/-- Witness for C9 at the initial state. -/
theorem clarity_constant_zero_witness : initialState.metrics.clarity = 0 := by
  exact clarity_constant_zero initialState Reachable.init

/-- C10: `analyzeAudioWithGemini` never rejects: it either returns the body's
successful text or resolves with the fixed Portuguese error message; in
particular a missing API key and a failed remote call both resolve with that
message. -/
theorem gemini_never_rejects (env : GeminiEnv) (mime : String)
    (img : Option String) (key b64 e : String)
    (blob : Except String String)
    (gen : List Part → Except String (Option String)) :
    ((∃ t, analyzeBody env mime img = Except.ok t ∧
        analyzeAudioWithGemini env mime img = t) ∨
      analyzeAudioWithGemini env mime img = geminiErrorMessage) ∧
    analyzeAudioWithGemini ⟨none, blob, gen⟩ mime img = geminiErrorMessage ∧
    analyzeAudioWithGemini ⟨some key, Except.ok b64, fun _ => Except.error e⟩ mime img =
      geminiErrorMessage := by
  refine ⟨?_, rfl, rfl⟩
  unfold analyzeAudioWithGemini
  cases hbody : analyzeBody env mime img with
  | ok t => exact Or.inl ⟨t, rfl, rfl⟩
  | error _ => exact Or.inr rfl

end VoiceScan
